import Mathlib

/-!
Verification of the message-ingestion pipeline of guilderia/backend against its
natural-language specification.  The definitions below are a shallow embedding of
crates/core/database/src/models/messages/model.rs: pure Rust functions become Lean
functions, database/event-bus/queue side effects become an explicit trace of
`Effect` values, fallible operations return `Except ErrorType`, and external
collaborators (mention parser, idempotency guard, permission oracle, persistence
lookups) are passed in as explicit function parameters.  Machine integers (u32
flag bitfields, usize lengths) are modelled as `Nat`; the one place Rust computes
a bitwise complement is masked to width 32 explicitly.
-/

namespace Guilderia

/-- Error kinds raised by the messages model via the create_error macro in
crates/core/result (variants as used in model.rs and listed in spec section 7). -/
inductive ErrorType where
  | EmptyMessage
  | InvalidProperty
  | InvalidFlagValue
  | IsNotBot
  | MissingPermission (permission : String)
  | TooManyReplies (max : Nat)
  | TooManyAttachments (max : Nat)
  | TooManyEmbeds (max : Nat)
  | PayloadTooLarge
  | FailedValidation (error : String)
  | DuplicateRequest
  | NotFound
  | InvalidOperation
  | InternalError
  deriving DecidableEq, Repr

/-- Message flag enumeration.  Modelled from the spec: the MessageFlags enum lives in
the guilderia_models crate, which is not among the analyzed sources; spec section 4.2
fixes the closed enumeration SuppressNotifications = 0, MentionsEveryone = 1,
MentionsOnline = 2 (bit positions). -/
inductive MessageFlags where
  | SuppressNotifications
  | MentionsEveryone
  | MentionsOnline
  deriving DecidableEq, Repr

/-- The Rust expression that casts a MessageFlags value to u32 (its discriminant). -/
def MessageFlags.toU32 : MessageFlags → Nat
  | .SuppressNotifications => 0
  | .MentionsEveryone => 1
  | .MentionsOnline => 2

/-- All-ones u32, used to model the Rust bitwise complement at width 32. -/
def u32Max : Nat := 2 ^ 32 - 1

/-- Wrapper over a u32 bitfield (struct MessageFlagsValue in model.rs). -/
structure MessageFlagsValue where
  val : Nat
  deriving DecidableEq, Repr

/-- MessageFlagsValue.has_value: mask = 1 << bit; self.0 & mask == mask. -/
def MessageFlagsValue.has_value (f : MessageFlagsValue) (bit : Nat) : Bool :=
  f.val &&& (1 <<< bit) == 1 <<< bit

/-- MessageFlagsValue.has: has_value at the discriminant of the flag. -/
def MessageFlagsValue.has (f : MessageFlagsValue) (flag : MessageFlags) : Bool :=
  f.has_value flag.toU32

/-- MessageFlagsValue.set_value: set or clear one bit (Rust complement modelled at
width 32 via xor with the all-ones word). -/
def MessageFlagsValue.set_value (f : MessageFlagsValue) (bit : Nat) (toggle : Bool) :
    MessageFlagsValue :=
  if toggle then ⟨f.val ||| (1 <<< bit)⟩ else ⟨f.val &&& (u32Max ^^^ (1 <<< bit))⟩

/-- MessageFlagsValue.set: set_value at the discriminant of the flag. -/
def MessageFlagsValue.set (f : MessageFlagsValue) (flag : MessageFlags) (toggle : Bool) :
    MessageFlagsValue :=
  f.set_value flag.toU32 toggle

/-- Stored file record (crate::File); only its id is consulted by the messages model. -/
structure File where
  id : String
  deriving DecidableEq, Repr

/-- v0::SendableEmbed — the inline embed payload a client submits. -/
structure SendableEmbed where
  icon_url : Option String := none
  url : Option String := none
  title : Option String := none
  description : Option String := none
  media : Option String := none
  colour : Option String := none
  deriving DecidableEq, Repr

/-- v0::Text — the text-embed record the model constructs. -/
structure Text where
  icon_url : Option String := none
  url : Option String := none
  title : Option String := none
  description : Option String := none
  media : Option File := none
  colour : Option String := none
  deriving DecidableEq, Repr

/-- v0::Embed restricted to the one variant the messages model constructs. -/
inductive Embed where
  | text (t : Text)
  deriving DecidableEq, Repr

/-- Interactions sub-record: optional reaction whitelist plus restriction boolean. -/
structure Interactions where
  reactions : Option (List String) := none
  restrict_reactions : Bool := false
  deriving DecidableEq, Repr

/-- Interactions.can_use from model.rs: under restriction, the emoji must be in the
whitelist (absent whitelist admits nothing); otherwise anything is allowed. -/
def Interactions.can_use (i : Interactions) (emoji : String) : Bool :=
  if i.restrict_reactions then
    match i.reactions with
    | some reactions => reactions.contains emoji
    | none => false
  else true

/-- Name / avatar override sub-record. -/
structure Masquerade where
  name : Option String := none
  avatar : Option String := none
  colour : Option String := none
  deriving DecidableEq, Repr

/-- System event payload (closed variant set from model.rs). -/
inductive SystemMessage where
  | text (content : String)
  | userAdded (id : String) (by_ : String)
  | userRemove (id : String) (by_ : String)
  | userJoined (id : String)
  | userLeft (id : String)
  | userKicked (id : String)
  | userBanned (id : String)
  | channelRenamed (name : String) (by_ : String)
  | channelDescriptionChanged (by_ : String)
  | channelIconChanged (by_ : String)
  | channelOwnershipChanged (from_ : String) (to_ : String)
  | messagePinned (id : String) (by_ : String)
  | messageUnpinned (id : String) (by_ : String)
  deriving DecidableEq, Repr

/-- The reaction map: emoji id to reactor set, insertion order of keys preserved
(IndexMap of IndexSet in the source). -/
abbrev Reactions := List (String × List String)

/-- Lookup of one emoji key in the reaction map (IndexMap::get). -/
def reactionsGet : Reactions → String → Option (List String)
  | [], _ => none
  | (k, users) :: rest, emoji => if k == emoji then some users else reactionsGet rest emoji

/-- IndexMap::contains_key on the reaction map. -/
def reactionsContainsKey (r : Reactions) (emoji : String) : Bool :=
  (reactionsGet r emoji).isSome

/-- Removal of a whole emoji key from the reaction map. -/
def reactionsEraseKey : Reactions → String → Reactions
  | [], _ => []
  | (k, users) :: rest, emoji =>
    if k == emoji then reactionsEraseKey rest emoji
    else (k, users) :: reactionsEraseKey rest emoji

/-- The central Message entity (field-for-field from model.rs; the webhook
sub-record is represented by its id, timestamps by strings). Defaults mirror the
Default impl in the source. -/
structure Message where
  id : String := ""
  nonce : Option String := none
  channel : String := ""
  author : String := ""
  webhook : Option String := none
  content : Option String := none
  system : Option SystemMessage := none
  attachments : Option (List File) := none
  edited : Option String := none
  embeds : Option (List Embed) := none
  mentions : Option (List String) := none
  role_mentions : Option (List String) := none
  replies : Option (List String) := none
  reactions : Reactions := []
  interactions : Interactions := {}
  masquerade : Option Masquerade := none
  pinned : Option Bool := none
  flags : Option Nat := none
  deriving DecidableEq, Repr

/-- Channel variants, trimmed to the fields the messages model consults
(id, server id, recipients). -/
inductive Channel where
  | SavedMessages (id : String) (user : String)
  | DirectMessage (id : String) (recipients : List String)
  | Group (id : String) (recipients : List String)
  | TextChannel (id : String) (server : String)
  | VoiceChannel (id : String) (server : String)
  deriving DecidableEq, Repr

/-- Channel::id. -/
def Channel.id : Channel → String
  | .SavedMessages i _ => i
  | .DirectMessage i _ => i
  | .Group i _ => i
  | .TextChannel i _ => i
  | .VoiceChannel i _ => i

/-- The server_id match at the top of create_from_api: only text and voice
channels carry a server. -/
def Channel.serverId : Channel → Option String
  | .TextChannel _ server => some server
  | .VoiceChannel _ server => some server
  | _ => none

/-- One entry of the side-effect trace: every persistence write, event-bus publish
and background-queue enqueue the messages model performs. -/
inductive Effect where
  | insertMessage (m : Message)
  | publishMessage (channel : String) (m : Message)
  | queueLastMessageId (channel : String) (id : String) (is_dm : Bool)
  | queueAckProcessMessage (channel : String) (m : Message) (users : List String)
      (suppressed : Bool)
  | queuePushProcessMessage (channel : String) (m : Message) (users : List String)
  | queueProcessEmbeds (channel : String) (id : String) (content : String)
  | publishReact (id : String) (channel_id : String) (user_id : String) (emoji_id : String)
  | dbAddReaction (id : String) (emoji : String) (user : String)
  | publishUnreact (id : String) (channel_id : String) (user_id : String) (emoji_id : String)
  | dbRemoveReaction (id : String) (emoji : String) (user : String)
  | dbClearReaction (id : String) (emoji : String)
  | publishRemoveReaction (id : String) (channel_id : String) (emoji_id : String)
  | markAttachmentsDeleted (ids : List String)
  | dbDeleteMessage (id : String)
  | publishMessageDelete (id : String) (channel : String)
  | dbDeleteMessages (channel : String) (ids : List String)
  | publishBulkDelete (channel : String) (ids : List String)
  deriving DecidableEq, Repr

/-- Modelled from the spec: the output of the mention-text parser (the external
guilderia_parser crate, not among the analyzed sources) — candidate user mentions,
role mentions, and the two textual broadcast tokens; the parse is tolerant and
never fails (spec section 4.3 step 1). -/
structure MessageResults where
  user_mentions : List String := []
  role_mentions : List String := []
  mentions_everyone : Bool := false
  mentions_online : Bool := false
  deriving DecidableEq, Repr

/-- v0::ReplyIntent — one requested reply reference. -/
structure ReplyIntent where
  id : String
  mention : Bool
  fail_if_not_exists : Option Bool := none
  deriving DecidableEq, Repr

/-- v0::DataMessageSend — the raw client payload, restricted to the fields
create_from_api reads. -/
structure DataMessageSend where
  nonce : Option String := none
  content : Option String := none
  attachments : Option (List String) := none
  embeds : Option (List SendableEmbed) := none
  replies : Option (List ReplyIntent) := none
  masquerade : Option Masquerade := none
  interactions : Option Interactions := none
  flags : Option Nat := none
  deriving DecidableEq, Repr

/-- The slice of v0::User the pipeline consults: its id and whether the bot
sub-record is present (here, the owning bot id when the user is a bot). -/
structure UserInfo where
  id : String
  bot : Option String := none
  deriving DecidableEq, Repr

/-- v0::MessageAuthor — user, webhook (by id), or the reserved system author. -/
inductive MessageAuthor where
  | user (u : UserInfo)
  | webhook (id : String)
  | system
  deriving DecidableEq, Repr

/-- The author-id / webhook projection at the start of message construction
(the system author maps to the reserved all-zero ulid). -/
def MessageAuthor.authorId : MessageAuthor → String
  | .user u => u.id
  | .webhook i => i
  | .system => "00000000000000000000000000"

/-- Caller-tier limits passed into the pipeline (FeaturesLimits). -/
structure FeaturesLimits where
  message_length : Nat := 2000
  message_attachments : Nat := 5
  deriving DecidableEq, Repr

/-- Global configured limits read from config().features.limits.global. -/
structure GlobalLimits where
  message_replies : Nat := 5
  message_embeds : Nat := 10
  message_reactions : Nat := 20
  deriving DecidableEq, Repr

/-- The slice of the global configuration the messages model reads. -/
structure Config where
  mass_mentions_enabled : Bool := true
  limits : GlobalLimits := {}
  deriving DecidableEq, Repr

/-- Outcome of calculate_channel_permissions for the sending author on the target
channel, restricted to the two capabilities the pipeline queries. -/
structure ChannelPerms where
  mention_everyone : Bool := false
  mention_roles : Bool := false
  deriving DecidableEq, Repr

/-- The collaborators of one create_from_api call: mention parser, idempotency
guard state, configuration snapshot, permission oracle and persistence lookups,
plus the freshly generated ulid for the new message. -/
structure Env where
  parser : String → MessageResults
  nonce_seen : String → Bool
  idem_key : String
  fetch_server_roles : String → List String
  perms : ChannelPerms
  fetch_message : String → Except ErrorType Message
  fetch_members : String → List String → Except ErrorType (List String)
  member_can_see : String → Bool
  use_attachment : String → String → String → Except ErrorType File
  new_message_id : String
  config : Config

/-- HashSet-style insertion into a list kept free of duplicates. -/
def insertUnique (l : List String) (x : String) : List String :=
  if l.contains x then l else l ++ [x]

/-- Sum of the description lengths over a list of sendable embeds. -/
def sumDescriptions : List SendableEmbed → Nat
  | [] => 0
  | e :: rest => (match e.description with | some d => d.length | none => 0) + sumDescriptions rest

/-- Message::validate_sum — content length plus embed description lengths must not
exceed the configured maximum, else PayloadTooLarge. -/
def Message.validate_sum (content : Option String) (embeds : List SendableEmbed)
    (max_length : Nat) : Except ErrorType Unit :=
  let running := (match content with | some c => c.length | none => 0) + sumDescriptions embeds
  if running ≤ max_length then .ok () else .error .PayloadTooLarge

/-- Modelled from the spec: the Idempotency Guard (spec section 4.1) — its
implementation (util/idempotency.rs) is not among the analyzed sources.  An
absent nonce always succeeds with the pre-generated fresh key; a supplied nonce
already consumed inside the dedup window fails with DuplicateRequest, otherwise
it is registered and becomes the durable echo key. -/
def consume_nonce (seen : String → Bool) (fresh_key : String) (nonce : Option String) :
    Except ErrorType String :=
  match nonce with
  | some n => if seen n then .error .DuplicateRequest else .ok n
  | none => .ok fresh_key

/-- The raw-flags intake block of create_from_api (values above 7 fast-reject as
InvalidProperty; flag-derived everyone/online gated on allow_mentions; non-bot
users may not set mention flags; both mention flags together are
InvalidFlagValue).  Returns the suppress / everyone / online booleans. -/
def flagStage (raw_flags : Option Nat) (allow_mentions : Bool) (user : Option UserInfo) :
    Except ErrorType (Bool × Bool × Bool) :=
  match raw_flags with
  | none => .ok (false, false, false)
  | some raw =>
    if raw > 7 then .error .InvalidProperty
    else
      let flags := MessageFlagsValue.mk raw
      let suppress := flags.has .SuppressNotifications
      let me := allow_mentions && flags.has .MentionsEveryone
      let mo := allow_mentions && flags.has .MentionsOnline
      if (match user with | some u => u.bot.isNone | none => false) && (me || mo) then
        .error .IsNotBot
      else if me && mo then
        .error .InvalidFlagValue
      else
        .ok (suppress, me, mo)

/-- The interaction-restriction sanity check of create_from_api: requesting
restrict_reactions with an absent or empty whitelist is InvalidProperty. -/
def interactionsIntakeCheck (i : Option Interactions) : Except ErrorType Unit :=
  match i with
  | none => .ok ()
  | some interactions =>
    if interactions.restrict_reactions then
      let disallowed := match interactions.reactions with
        | some list => list.isEmpty
        | none => true
      if disallowed then .error .InvalidProperty else .ok ()
    else .ok ()

/-- The role-mention pruning step inside the mass-mention validation block: when
mass mentions are allowed, the channel has a server and role mentions are
present, retain only role ids existing on that server. -/
def pruneRoles (env : Env) (allow_mass_mentions : Bool) (server_id : Option String)
    (role_mentions : List String) : List String :=
  if allow_mass_mentions && server_id.isSome && !role_mentions.isEmpty then
    match server_id with
    | some sid => role_mentions.filter (fun r => (env.fetch_server_roles sid).contains r)
    | none => role_mentions
  else role_mentions

/-- The mass-mention validation block of create_from_api: prune role mentions to
roles existing on the server (when allowed and in a server channel), clear all
mass-mention signals when the feature is disabled, otherwise require author
permissions (system author disallowed, webhooks bypass the check). -/
def massMentionStage (env : Env) (author : MessageAuthor) (allow_mass_mentions : Bool)
    (server_id : Option String) (me mo : Bool) (role_mentions : List String) :
    Except ErrorType (Bool × Bool × List String) :=
  let role_mentions := pruneRoles env allow_mass_mentions server_id role_mentions
  if !env.config.mass_mentions_enabled && (me || mo || !role_mentions.isEmpty) then
    .ok (false, false, [])
  else if me || mo || !role_mentions.isEmpty then
    match author with
    | .system => .error .InvalidProperty
    | .webhook _ => .ok (me, mo, role_mentions)
    | .user _ =>
      if (me || mo) && !env.perms.mention_everyone then
        .error (.MissingPermission "MentionEveryone")
      else if !role_mentions.isEmpty && !env.perms.mention_roles then
        .error (.MissingPermission "MentionRoles")
      else
        .ok (me, mo, role_mentions)
  else
    .ok (me, mo, role_mentions)

/-- The per-intent reply resolution loop of create_from_api: a found target may add
its author to the working user-mention set and is recorded in the reply set; a
lookup failure aborts unless it is specifically NotFound and the strictness flag
is explicitly false, in which case that one reply is skipped. -/
def linkRepliesLoop (fetch : String → Except ErrorType Message) (allow_mentions : Bool) :
    List ReplyIntent → List String → List String →
    Except ErrorType (List String × List String)
  | [], um, reps => .ok (um, reps)
  | intent :: rest, um, reps =>
    match fetch intent.id with
    | .ok msg =>
      let um := if intent.mention && allow_mentions then insertUnique um msg.author else um
      linkRepliesLoop fetch allow_mentions rest um (insertUnique reps msg.id)
    | .error e =>
      if !(e == ErrorType.NotFound) || intent.fail_if_not_exists.getD true then .error e
      else linkRepliesLoop fetch allow_mentions rest um reps

/-- The reply-linking stage of create_from_api: fail fast with TooManyReplies when
the intent count exceeds the configured maximum, before resolving any target;
otherwise run the resolution loop over the intents in input order. -/
def link_replies (fetch : String → Except ErrorType Message) (max_replies : Nat)
    (allow_mentions : Bool) (entries : Option (List ReplyIntent)) (um : List String) :
    Except ErrorType (List String × List String) :=
  match entries with
  | none => .ok (um, [])
  | some entries =>
    if entries.length > max_replies then .error (.TooManyReplies max_replies)
    else linkRepliesLoop fetch allow_mentions entries um []

/-- The destination-kind mention narrowing block of create_from_api (only entered
when the user-mention set is non-empty): DM and group channels retain recipient
mentions and clear role mentions; server channels narrow to members that can see
the channel (a failed member lookup is InternalError); saved messages clear all
user mentions. -/
def narrowMentionsCore (fetch_members : String → List String → Except ErrorType (List String))
    (member_can_see : String → Bool) (channel : Channel) (um roles : List String) :
    Except ErrorType (List String × List String) :=
  if um.isEmpty then .ok (um, roles)
  else
    match channel with
    | .DirectMessage _ recipients | .Group _ recipients =>
      .ok (um.filter (fun m => recipients.contains m), [])
    | .TextChannel _ server | .VoiceChannel _ server =>
      match fetch_members server um with
      | .ok valid_members =>
        let um := um.filter (fun m => valid_members.contains m)
        let um := if !um.isEmpty then um.filter (fun m => member_can_see m) else um
        .ok (um, roles)
      | .error _ => .error .InternalError
    | .SavedMessages _ _ => .ok ([], roles)

/-- The final flag assembly of create_from_api: start from zero and set the
suppress / everyone / online bits from the resolved booleans. -/
def finalFlags (suppress me mo : Bool) : Nat :=
  ((((MessageFlagsValue.mk 0).set .SuppressNotifications suppress).set
      .MentionsEveryone me).set .MentionsOnline mo).val

/-- Resolution of attachment references against the upload store, in input order,
propagating the first failure. -/
def resolveAttachments (use_att : String → Except ErrorType File) :
    List String → Except ErrorType (List File)
  | [] => .ok []
  | i :: rest =>
    match use_att i with
    | .ok f =>
      match resolveAttachments use_att rest with
      | .ok fs => .ok (f :: fs)
      | .error e => .error e
    | .error e => .error e

/-- Construction of the text embed from a sendable embed and its resolved media. -/
def sendableToText (embed : SendableEmbed) (media : Option File) : Embed :=
  .text { icon_url := embed.icon_url, url := embed.url, title := embed.title,
          description := embed.description, media := media, colour := embed.colour }

/-- Message::attach_sendable_embed — resolve the embed media (if any) against the
upload store and append the resulting text embed to the message; note there is no
field-level validation on this path. -/
def Message.attach_sendable_embed (use_att : String → String → String → Except ErrorType File)
    (m : Message) (embed : SendableEmbed) : Except ErrorType Message :=
  match embed.media with
  | some i =>
    match use_att i m.id m.author with
    | .ok f =>
      .ok { m with embeds := some ((m.embeds.getD []) ++ [sendableToText embed (some f)]) }
    | .error e => .error e
  | none => .ok { m with embeds := some ((m.embeds.getD []) ++ [sendableToText embed none]) }

/-- The embed-attachment loop of create_from_api over the submitted embeds. -/
def attachEmbedsLoop (use_att : String → String → String → Except ErrorType File) :
    Message → List SendableEmbed → Except ErrorType Message
  | m, [] => .ok m
  | m, e :: rest =>
    match m.attach_sendable_embed use_att e with
    | .ok m2 => attachEmbedsLoop use_att m2 rest
    | .error e2 => .error e2

/-- Message::create_embed — validate the sendable embed first (a failure surfaces
as FailedValidation carrying the validation error), then resolve its media and
build the text embed.  The validate parameter models the derived field-level
validator of SendableEmbed (the guilderia_models crate is not among the analyzed
sources); Modelled from the spec: field-level structural validation such as URL
well-formedness, returning a validation error description on failure. -/
def Message.create_embed (validate : SendableEmbed → Option String)
    (use_att : String → String → String → Except ErrorType File)
    (m : Message) (embed : SendableEmbed) : Except ErrorType Embed :=
  match validate embed with
  | some error => .error (.FailedValidation error)
  | none =>
    match embed.media with
    | some i =>
      match use_att i m.id m.author with
      | .ok f => .ok (sendableToText embed (some f))
      | .error e => .error e
    | none => .ok (sendableToText embed none)

/-- Message::has_suppressed_notifications — the source computes
flags & (SuppressNotifications as u32) == (SuppressNotifications as u32),
using the discriminant directly as the mask (no shift); false when flags is absent. -/
def Message.has_suppressed_notifications (m : Message) : Bool :=
  match m.flags with
  | some flags =>
    flags &&& MessageFlags.SuppressNotifications.toU32 ==
      MessageFlags.SuppressNotifications.toU32
  | none => false

/-- Message::contains_mass_push_mention — the everyone flag bit is set or any role
mention is recorded. -/
def Message.contains_mass_push_mention (m : Message) : Bool :=
  let ping := match m.flags with
    | some flags => (MessageFlagsValue.mk flags).has .MentionsEveryone
    | none => false
  ping || m.role_mentions.isSome

/-- The effect trace of Message::send_without_notifications: insert, broadcast,
last-message-id enqueue, the mention-ack enqueue (unless handled elsewhere), and
the embed-generation enqueue (when requested and content is present). -/
def Message.sendWithoutNotificationsEffects (m : Message)
    (is_dm generate_embeds mentions_elsewhere : Bool) : List Effect :=
  [Effect.insertMessage m, Effect.publishMessage m.channel m,
   Effect.queueLastMessageId m.channel m.id is_dm]
  ++ (if !mentions_elsewhere then
        match m.mentions with
        | some mentions =>
          [Effect.queueAckProcessMessage m.channel m mentions m.has_suppressed_notifications]
        | none => []
      else [])
  ++ (if generate_embeds then
        match m.content with
        | some content => [Effect.queueProcessEmbeds m.channel m.id content]
        | none => []
      else [])

/-- The effect trace of Message::send: the notification-free send (with the
mention ack deferred), then the push-notification enqueue gated on notifications
not being suppressed and a user mention or mass-push mention being present. -/
def Message.sendEffects (m : Message) (channel : Channel) (generate_embeds : Bool) :
    List Effect :=
  m.sendWithoutNotificationsEffects
      (match channel with | .DirectMessage _ _ => true | _ => false) generate_embeds true
  ++ (if !m.has_suppressed_notifications && (m.mentions.isSome || m.contains_mass_push_mention)
      then
        [Effect.queuePushProcessMessage m.channel m
          (match channel with
           | .DirectMessage _ recipients | .Group _ recipients => recipients
           | .TextChannel _ _ => m.mentions.getD []
           | _ => [])]
      else [])

/-- The parse step of create_from_api: parse the raw content when present,
otherwise the default (empty) parse result. -/
def parsedResults (env : Env) (data : DataMessageSend) : MessageResults :=
  match data.content with
  | some raw => env.parser raw
  | none => {}

/-- Message::create_from_api up to (but excluding) the send step: the staged
construction of the message record, returning the fully built message or the
first stage error.  Stages in source order: payload-size validation, idempotency
consumption (its failure mapped to InvalidOperation), emptiness check, raw-flag
intake, interaction-restriction check, record construction, mention parsing and
flag OR-ing, mass-mention validation, reply linking, destination narrowing,
field finalization, final flag assembly, attachment and embed binding, content
and nonce assignment. -/
def buildMessage (env : Env) (channel : Channel) (data : DataMessageSend)
    (author : MessageAuthor) (user : Option UserInfo) (limits : FeaturesLimits)
    (allow_mentions : Bool) : Except ErrorType Message :=
  match Message.validate_sum data.content (data.embeds.getD []) limits.message_length with
  | .error e => .error e
  | .ok _ =>
  match consume_nonce env.nonce_seen env.idem_key data.nonce with
  | .error _ => .error .InvalidOperation
  | .ok key =>
  if (data.content.getD "").isEmpty && (data.attachments.getD []).isEmpty
      && (data.embeds.getD []).isEmpty then
    .error .EmptyMessage
  else
  let allow_mass_mentions := allow_mentions && env.config.mass_mentions_enabled
  match flagStage data.flags allow_mentions user with
  | .error e => .error e
  | .ok (suppress, me0, mo0) =>
  let server_id := channel.serverId
  match interactionsIntakeCheck data.interactions with
  | .error e => .error e
  | .ok _ =>
  let author_id := author.authorId
  let webhook : Option String := match author with | .webhook i => some i | _ => none
  let message_id := env.new_message_id
  let message : Message :=
    { id := message_id, channel := channel.id, masquerade := data.masquerade,
      interactions := data.interactions.getD {}, author := author_id,
      webhook := webhook, flags := data.flags }
  let parsed := parsedResults env data
  let me1 := parsed.mentions_everyone || me0
  let mo1 := parsed.mentions_online || mo0
  match massMentionStage env author allow_mass_mentions server_id me1 mo1 parsed.role_mentions
  with
  | .error e => .error e
  | .ok (me2, mo2, roles1) =>
  match link_replies env.fetch_message env.config.limits.message_replies allow_mentions
      data.replies parsed.user_mentions with
  | .error e => .error e
  | .ok (um1, reps) =>
  match narrowMentionsCore env.fetch_members env.member_can_see channel um1 roles1 with
  | .error e => .error e
  | .ok (um2, roles2) =>
  let message := if !um2.isEmpty then { message with mentions := some um2 } else message
  let message := if !roles2.isEmpty then { message with role_mentions := some roles2 } else message
  let message := if !reps.isEmpty then { message with replies := some reps } else message
  let message := { message with flags := some (finalFlags suppress me2 mo2) }
  if (data.attachments.getD []).length > limits.message_attachments then
    .error (.TooManyAttachments limits.message_attachments)
  else if (data.embeds.getD []).length > env.config.limits.message_embeds then
    .error (.TooManyEmbeds env.config.limits.message_embeds)
  else
  match resolveAttachments (fun aid => env.use_attachment aid message_id author_id)
      (data.attachments.getD []) with
  | .error e => .error e
  | .ok atts =>
  let message := if !atts.isEmpty then { message with attachments := some atts } else message
  match attachEmbedsLoop env.use_attachment message (data.embeds.getD []) with
  | .error e => .error e
  | .ok message2 =>
  .ok { message2 with content := data.content, nonce := some key }

/-- Message::create_from_api — build the message, then perform the send step,
yielding the finalized message together with its persistence / fan-out effect
trace. -/
def Message.create_from_api (env : Env) (channel : Channel) (data : DataMessageSend)
    (author : MessageAuthor) (user : Option UserInfo) (limits : FeaturesLimits)
    (generate_embeds : Bool) (allow_mentions : Bool) :
    Except ErrorType (Message × List Effect) :=
  match buildMessage env channel data author user limits allow_mentions with
  | .ok m => .ok (m, m.sendEffects channel generate_embeds)
  | .error e => .error e

/-- Message::add_reaction — reject when the distinct-emoji count is at or over the
configured limit and this emoji is new, when the interaction policy disallows the
emoji, or when the emoji does not resolve to a usable emoji; otherwise broadcast
the reaction event and persist the reactor addition. -/
def Message.add_reaction (message_reactions_limit : Nat) (emoji_usable : Except ErrorType Bool)
    (m : Message) (user : String) (emoji : String) : Except ErrorType (List Effect) :=
  if m.reactions.length ≥ message_reactions_limit ∧ reactionsContainsKey m.reactions emoji = false
  then
    .error .InvalidOperation
  else if m.interactions.can_use emoji = false then
    .error .InvalidOperation
  else
    match emoji_usable with
    | .error e => .error e
    | .ok usable =>
      if usable = false then .error .InvalidOperation
      else
        .ok [Effect.publishReact m.id m.channel user emoji, Effect.dbAddReaction m.id emoji user]

/-- Message::remove_reaction — NotFound when the emoji has no reactor set or the
user is not among its reactors; the unreact event is broadcast, then either the
whole emoji key is cleared (last reactor) or just this reactor is removed. -/
def Message.remove_reaction (m : Message) (user : String) (emoji : String) :
    Except ErrorType (List Effect) :=
  match reactionsGet m.reactions emoji with
  | some users =>
    if users.contains user = false then .error .NotFound
    else
      .ok ([Effect.publishUnreact m.id m.channel user emoji]
        ++ (if users.length == 1 then [Effect.dbClearReaction m.id emoji]
            else [Effect.dbRemoveReaction m.id emoji user]))
  | none => .error .NotFound

/-- Message::clear_reaction — unconditional broadcast and persistence of the
removal of the whole emoji key. -/
def Message.clear_reaction (m : Message) (emoji : String) : List Effect :=
  [Effect.publishRemoveReaction m.id m.channel emoji, Effect.dbClearReaction m.id emoji]

/-- Modelled from the spec: the persistence collaborator operation clearReaction
(spec sections 4.7 and 6) removes the whole emoji key from the stored reaction
map; this is the stored message as re-read after that write. -/
def Message.applyClearReaction (m : Message) (emoji : String) : Message :=
  { m with reactions := reactionsEraseKey m.reactions emoji }

/-- Message::delete — mark the owned attachments deleted (when any), delete the
message, broadcast the deletion event. -/
def Message.delete (m : Message) : List Effect :=
  let file_ids : List String :=
    match m.attachments with
    | some files => files.map (fun f => f.id)
    | none => []
  (if file_ids.isEmpty then [] else [Effect.markAttachmentsDeleted file_ids])
  ++ [Effect.dbDeleteMessage m.id, Effect.publishMessageDelete m.id m.channel]

/-- Message::bulk_delete — resolve the ids, keep only messages belonging to the
given channel, delete that surviving set in one operation and broadcast one
bulk-delete event carrying the surviving ids. -/
def Message.bulk_delete (fetch_by_id : List String → List Message) (channel : String)
    (ids : List String) : List Effect :=
  let valid_ids :=
    ((fetch_by_id ids).filter (fun msg => msg.channel == channel)).map (fun msg => msg.id)
  [Effect.dbDeleteMessages channel valid_ids, Effect.publishBulkDelete channel valid_ids]

/-- A message holding one attachment, used as concrete input for the bulk-delete
cascade analysis. -/
def c4Msg : Message := { id := "m1", channel := "c", attachments := some [{ id := "f1" }] }

/-- A benign collaborator environment: trivial parse results, no nonce seen yet,
empty server data, all lookups succeeding, default configuration. -/
def envBase : Env :=
  { parser := fun _ => {},
    nonce_seen := fun _ => false,
    idem_key := "k",
    fetch_server_roles := fun _ => [],
    perms := {},
    fetch_message := fun _ => .error .NotFound,
    fetch_members := fun _ _ => .ok [],
    member_can_see := fun _ => true,
    use_attachment := fun _ _ _ => .ok { id := "f" },
    new_message_id := "01H",
    config := {} }

/-- Environment whose parser finds both the everyone and the online token in any
content (as for a text containing both tokens). -/
def envC1 : Env :=
  { envBase with parser := fun _ => { mentions_everyone := true, mentions_online := true } }

/-- Environment whose idempotency guard has already seen every nonce (second
call of an idempotent resubmission). -/
def envC2 : Env := { envBase with nonce_seen := fun _ => true }

/-- Environment whose parser finds one role mention and no user mentions in any
content. -/
def envC5 : Env := { envBase with parser := fun _ => { role_mentions := ["r"] } }

/-- A structurally invalid inline embed (its url field fails validation) that
carries a media reference. -/
def c3Embed : SendableEmbed := { url := some "notaurl", media := some "att1" }

/-- A concrete instance of the spec-modelled field-level validator under which
every embed carrying a url is rejected as malformed; c3Embed is invalid under it. -/
def c3Validate : SendableEmbed → Option String :=
  fun e => match e.url with | some _ => some "invalid url" | none => none

lemma reactionsGet_eraseKey (r : Reactions) (emoji : String) :
    reactionsGet (reactionsEraseKey r emoji) emoji = none := by
  induction r with
  | nil => rfl
  | cons p rest ih =>
    obtain ⟨k, users⟩ := p
    cases h : k == emoji with
    | true => simpa [reactionsEraseKey, h] using ih
    | false => simpa [reactionsEraseKey, reactionsGet, h] using ih

/-- Claim C10: the source of has_suppressed_notifications computes
flags AND discriminant == discriminant with the SuppressNotifications
discriminant (0 by spec section 4.2) used directly as the mask, so the function
returns true for every present flags value; at flags = 2 (bit 0 clear) it
returns true although bit 0 is not set, contradicting the claimed equivalence
with bit 0. -/
theorem c10_has_suppressed_code_divergence :
    Message.has_suppressed_notifications { flags := some 2 } = true
    ∧ Nat.testBit 2 0 = false := by
  constructor
  · rfl
  · decide

/-- Claim C6: add_reaction is rejected with InvalidOperation when the
distinct-emoji count is at or over the limit and the emoji key is new, and when
the interaction policy restricts reactions to a whitelist not containing the
emoji (or restricts with no whitelist at all); adding a reactor to an existing
emoji key succeeds (policy permitting, emoji usable) even at the limit. -/
theorem c6_add_reaction_limit_whitelist (limit : Nat) (usable : Except ErrorType Bool)
    (m : Message) (user emoji : String) :
    (limit ≤ m.reactions.length → reactionsContainsKey m.reactions emoji = false →
      Message.add_reaction limit usable m user emoji = .error .InvalidOperation)
  ∧ (m.interactions.restrict_reactions = true →
      (∀ l, m.interactions.reactions = some l → l.contains emoji = false) →
      Message.add_reaction limit usable m user emoji = .error .InvalidOperation)
  ∧ (reactionsContainsKey m.reactions emoji = true → m.interactions.can_use emoji = true →
      usable = .ok true →
      Message.add_reaction limit usable m user emoji =
        .ok [Effect.publishReact m.id m.channel user emoji,
             Effect.dbAddReaction m.id emoji user]) := by
  refine ⟨?_, ?_, ?_⟩
  · intro h1 h2
    simp [Message.add_reaction, h1, h2]
  · intro hr hw
    have hcu : m.interactions.can_use emoji = false := by
      cases hx : m.interactions.reactions with
      | none => simp [Interactions.can_use, hr, hx]
      | some l =>
        have hw2 : emoji ∉ l := by simpa using hw l hx
        simp [Interactions.can_use, hr, hx, hw2]
    by_cases h1 : (m.reactions.length ≥ limit ∧ reactionsContainsKey m.reactions emoji = false)
    · simp [Message.add_reaction, h1]
    · simp [Message.add_reaction, h1, hcu]
  · intro hk hcu hu
    have h1 : ¬(m.reactions.length ≥ limit ∧ reactionsContainsKey m.reactions emoji = false) := by
      rintro ⟨_, hc⟩
      rw [hk] at hc
      cases hc
    simp [Message.add_reaction, h1, hcu, hu]

/-- Claim C6 witness: at limit 1 with one existing key, a new emoji is rejected;
a restricted whitelist without the emoji is rejected; adding a reactor to the
existing key at the limit succeeds. -/
theorem c6_add_reaction_witness :
    Message.add_reaction 1 (.ok true) { reactions := [("a", ["u1"])] } "u2" "b" =
      .error .InvalidOperation
  ∧ Message.add_reaction 1 (.ok true)
      { interactions := { reactions := some ["x"], restrict_reactions := true } } "u2" "a" =
      .error .InvalidOperation
  ∧ Message.add_reaction 1 (.ok true)
      { id := "m", channel := "c", reactions := [("a", ["u1"])] } "u2" "a" =
      .ok [Effect.publishReact "m" "c" "u2" "a", Effect.dbAddReaction "m" "a" "u2"] := by
  refine ⟨?_, ?_, ?_⟩
  · exact (c6_add_reaction_limit_whitelist 1 (.ok true)
      { reactions := [("a", ["u1"])] } "u2" "b").1 (by decide) (by decide)
  · exact (c6_add_reaction_limit_whitelist 1 (.ok true)
      { interactions := { reactions := some ["x"], restrict_reactions := true } } "u2" "a").2.1
      (by decide) (by decide)
  · exact (c6_add_reaction_limit_whitelist 1 (.ok true)
      { id := "m", channel := "c", reactions := [("a", ["u1"])] } "u2" "a").2.2
      (by decide) (by decide) rfl

/-- Claim C7: remove_reaction returns NotFound when the emoji has no reactor set
or the user is not among its reactors; removing the last reactor clears the whole
emoji key, so a subsequent remove of the same emoji (on the stored message after
the clearReaction write) returns NotFound. -/
theorem c7_remove_reaction_notfound_and_clear (m : Message) (user user2 emoji : String) :
    (reactionsGet m.reactions emoji = none →
      Message.remove_reaction m user emoji = .error .NotFound)
  ∧ (∀ users, reactionsGet m.reactions emoji = some users → users.contains user = false →
      Message.remove_reaction m user emoji = .error .NotFound)
  ∧ (∀ users, reactionsGet m.reactions emoji = some users → users.contains user = true →
      users.length = 1 →
      Message.remove_reaction m user emoji =
        .ok [Effect.publishUnreact m.id m.channel user emoji, Effect.dbClearReaction m.id emoji]
      ∧ Message.remove_reaction (m.applyClearReaction emoji) user2 emoji = .error .NotFound) := by
  refine ⟨?_, ?_, ?_⟩
  · intro h
    simp [Message.remove_reaction, h]
  · intro users h hc
    have hc2 : user ∉ users := by simpa using hc
    simp [Message.remove_reaction, h, hc2]
  · intro users h hc hl
    have hc2 : user ∈ users := by simpa using hc
    constructor
    · simp [Message.remove_reaction, h, hc2, hl]
    · have hg : reactionsGet (m.applyClearReaction emoji).reactions emoji = none := by
        simpa [Message.applyClearReaction] using reactionsGet_eraseKey m.reactions emoji
      simp [Message.remove_reaction, hg]

/-- Claim C7 witness: on a message whose emoji key has a single reactor, removing
that reactor clears the key and the subsequent remove returns NotFound; an
unknown emoji and a non-reactor both return NotFound. -/
theorem c7_remove_reaction_witness :
    Message.remove_reaction { id := "m", channel := "c", reactions := [("e", ["u1"])] } "u0" "z" =
      .error .NotFound
  ∧ Message.remove_reaction { id := "m", channel := "c", reactions := [("e", ["u1"])] } "u2" "e" =
      .error .NotFound
  ∧ Message.remove_reaction { id := "m", channel := "c", reactions := [("e", ["u1"])] } "u1" "e" =
      .ok [Effect.publishUnreact "m" "c" "u1" "e", Effect.dbClearReaction "m" "e"]
  ∧ Message.remove_reaction
      (Message.applyClearReaction { id := "m", channel := "c", reactions := [("e", ["u1"])] } "e")
      "u3" "e" = .error .NotFound := by
  refine ⟨?_, ?_, ?_, ?_⟩
  · exact (c7_remove_reaction_notfound_and_clear
      { id := "m", channel := "c", reactions := [("e", ["u1"])] } "u0" "u3" "z").1 (by decide)
  · exact (c7_remove_reaction_notfound_and_clear
      { id := "m", channel := "c", reactions := [("e", ["u1"])] } "u2" "u3" "e").2.1
      ["u1"] (by decide) (by decide)
  · exact ((c7_remove_reaction_notfound_and_clear
      { id := "m", channel := "c", reactions := [("e", ["u1"])] } "u1" "u3" "e").2.2
      ["u1"] (by decide) (by decide) (by decide)).1
  · exact ((c7_remove_reaction_notfound_and_clear
      { id := "m", channel := "c", reactions := [("e", ["u1"])] } "u1" "u3" "e").2.2
      ["u1"] (by decide) (by decide) (by decide)).2

/-- Claim C4 counterexample: bulk-deleting a message that owns an attachment
produces only the delete-messages write and the bulk-delete broadcast — no
markAttachmentsDeleted effect — while individual deletion of the same message
does mark the attachment deleted. -/
theorem c4_bulk_delete_counterexample :
    Message.bulk_delete (fun _ => [c4Msg]) "c" ["m1"] =
      [Effect.dbDeleteMessages "c" ["m1"], Effect.publishBulkDelete "c" ["m1"]]
  ∧ Effect.markAttachmentsDeleted ["f1"] ∉ Message.bulk_delete (fun _ => [c4Msg]) "c" ["m1"]
  ∧ Message.delete c4Msg =
      [Effect.markAttachmentsDeleted ["f1"], Effect.dbDeleteMessage "m1",
       Effect.publishMessageDelete "m1" "c"] := by
  refine ⟨by decide, by decide, by decide⟩

/-- Claim C4 amended: individual deletion cascades to marking the owned
attachments deleted, but the channel-scoped bulk-delete operation never emits a
markAttachmentsDeleted effect — it only deletes the channel-matching subset and
broadcasts the bulk-delete event. -/
theorem c4_bulk_delete_amended (fetch : List String → List Message) (channel : String)
    (ids fids : List String) (m : Message) (files : List File) :
    Effect.markAttachmentsDeleted fids ∉ Message.bulk_delete fetch channel ids
  ∧ (m.attachments = some files → files ≠ [] →
      Message.delete m =
        Effect.markAttachmentsDeleted (files.map File.id)
          :: [Effect.dbDeleteMessage m.id, Effect.publishMessageDelete m.id m.channel]) := by
  constructor
  · simp [Message.bulk_delete]
  · intro ha hne
    have hmap : (files.map File.id).isEmpty = false := by
      cases files with
      | nil => exact absurd rfl hne
      | cons a l => rfl
    simp [Message.delete, ha, hmap]

/-- Claim C4 amended witness: instantiation at the one-attachment message. -/
theorem c4_bulk_delete_amended_witness :
    Effect.markAttachmentsDeleted ["f1"] ∉ Message.bulk_delete (fun _ => [c4Msg]) "c" ["m1"]
  ∧ Message.delete c4Msg =
      Effect.markAttachmentsDeleted ["f1"]
        :: [Effect.dbDeleteMessage "m1", Effect.publishMessageDelete "m1" "c"] := by
  refine ⟨(c4_bulk_delete_amended (fun _ => [c4Msg]) "c" ["m1"] ["f1"] c4Msg [{ id := "f1" }]).1,
    (c4_bulk_delete_amended (fun _ => [c4Msg]) "c" ["m1"] ["f1"] c4Msg [{ id := "f1" }]).2
      (by decide) (by decide)⟩

/-- Claim C9: reply linking fails fast with TooManyReplies when the intent count
exceeds the configured maximum, for every lookup oracle (so before resolving any
target); a failed target lookup aborts with the propagated error unless the
failure is specifically NotFound and the strictness flag is explicitly false, in
which case the reply is skipped without aborting; an unspecified strictness flag
defaults to aborting. -/
theorem c9_reply_linking (fetch : String → Except ErrorType Message) (max_replies : Nat)
    (am : Bool) (entries : List ReplyIntent) (um : List String) (rid : String)
    (men : Bool) (strict : Option Bool) (e : ErrorType) :
    (entries.length > max_replies →
      link_replies fetch max_replies am (some entries) um = .error (.TooManyReplies max_replies))
  ∧ (1 ≤ max_replies → fetch rid = .error e →
      ((e ≠ .NotFound ∨ strict = none ∨ strict = some true →
        link_replies fetch max_replies am
          (some [{ id := rid, mention := men, fail_if_not_exists := strict }]) um = .error e)
      ∧ (e = .NotFound → strict = some false →
        link_replies fetch max_replies am
          (some [{ id := rid, mention := men, fail_if_not_exists := strict }]) um =
          .ok (um, [])))) := by
  constructor
  · intro h
    simp [link_replies, h]
  · intro hmax hf
    have h0 : max_replies ≠ 0 := by omega
    constructor
    · intro habort
      rcases habort with he | hs | hs
      · have hbeq : (e == ErrorType.NotFound) = false := by
          simp [he]
        simp [link_replies, linkRepliesLoop, hf, hbeq, h0]
      · simp [link_replies, linkRepliesLoop, hf, hs, h0]
      · simp [link_replies, linkRepliesLoop, hf, hs, h0]
    · intro he hs
      subst he
      subst hs
      simp [link_replies, linkRepliesLoop, hf, h0]

/-- Claim C9 witness: with maximum 2, three intents fail fast; a NotFound target
with strictness false is skipped; a NotFound target with unspecified strictness
aborts. -/
theorem c9_reply_linking_witness :
    link_replies (fun _ => .error .NotFound) 2 true
      (some [{ id := "a", mention := false }, { id := "b", mention := false },
             { id := "c", mention := false }]) [] = .error (.TooManyReplies 2)
  ∧ link_replies (fun _ => .error .NotFound) 2 true
      (some [{ id := "a", mention := false, fail_if_not_exists := some false }]) ["u"] =
      .ok (["u"], [])
  ∧ link_replies (fun _ => .error .NotFound) 2 true
      (some [{ id := "a", mention := false }]) ["u"] = .error .NotFound := by
  refine ⟨?_, ?_, ?_⟩
  · exact (c9_reply_linking (fun _ => .error .NotFound) 2 true
      [{ id := "a", mention := false }, { id := "b", mention := false },
       { id := "c", mention := false }] [] "a" false none .NotFound).1 (by decide)
  · exact ((c9_reply_linking (fun _ => .error .NotFound) 2 true [] ["u"] "a" false
      (some false) .NotFound).2 (by decide) rfl).2 rfl rfl
  · exact ((c9_reply_linking (fun _ => .error .NotFound) 2 true [] ["u"] "a" false
      none .NotFound).2 (by decide) rfl).1 (Or.inr (Or.inl rfl))

/-- Claim C5 counterexample: a send to a group channel whose content parses to a
role mention but to no user mention finalizes with the role mention retained —
the narrowing block (and with it the role clearing) only runs when the
user-mention set is non-empty. -/
theorem c5_narrowing_counterexample :
    (match Message.create_from_api envC5 (Channel.Group "g" ["a", "b"])
        { content := some "hi" } (.webhook "w") none {} true true with
     | .ok (m, _) => m.role_mentions
     | .error _ => none) = some ["r"]
  ∧ (some ["r"] : Option (List String)) ≠ none := by
  exact ⟨by decide, by decide⟩

/-- Claim C5 amended: when the user-mention set reaching the narrowing stage is
non-empty, direct-message and group sends retain exactly the mentions that are
current recipients and clear all role mentions; when it is empty the narrowing
stage passes both sets through unchanged (so role mentions survive); for
saved-messages channels the resulting user-mention set is always empty. -/
theorem c5_narrowing_amended (f : String → List String → Except ErrorType (List String))
    (canSee : String → Bool) (cid uid : String) (recipients um roles : List String) :
    (um ≠ [] →
      narrowMentionsCore f canSee (.DirectMessage cid recipients) um roles =
        .ok (um.filter (fun x => recipients.contains x), [])
      ∧ narrowMentionsCore f canSee (.Group cid recipients) um roles =
        .ok (um.filter (fun x => recipients.contains x), []))
  ∧ narrowMentionsCore f canSee (.DirectMessage cid recipients) [] roles = .ok ([], roles)
  ∧ narrowMentionsCore f canSee (.Group cid recipients) [] roles = .ok ([], roles)
  ∧ narrowMentionsCore f canSee (.SavedMessages cid uid) um roles = .ok ([], roles) := by
  refine ⟨?_, ?_, ?_, ?_⟩
  · intro hne
    have h : um.isEmpty = false := by
      cases um with
      | nil => exact absurd rfl hne
      | cons a l => rfl
    exact ⟨by simp [narrowMentionsCore, h], by simp [narrowMentionsCore, h]⟩
  · simp [narrowMentionsCore]
  · simp [narrowMentionsCore]
  · cases um with
    | nil => simp [narrowMentionsCore]
    | cons a l => simp [narrowMentionsCore]

/-- Claim C5 amended witness: instantiation at a group channel with recipients a
and b, user mentions a and x, one role mention. -/
theorem c5_narrowing_amended_witness :
    narrowMentionsCore (fun _ _ => .ok []) (fun _ => true) (.Group "g" ["a", "b"])
      ["a", "x"] ["r"] = .ok (["a"], [])
  ∧ narrowMentionsCore (fun _ _ => .ok []) (fun _ => true) (.Group "g" ["a", "b"]) [] ["r"] =
      .ok ([], ["r"])
  ∧ narrowMentionsCore (fun _ _ => .ok []) (fun _ => true) (.SavedMessages "s" "u")
      ["a", "x"] ["r"] = .ok ([], ["r"]) := by
  refine ⟨?_, ?_, ?_⟩
  · have h := ((c5_narrowing_amended (fun _ _ => .ok []) (fun _ => true) "g" "u"
      ["a", "b"] ["a", "x"] ["r"]).1 (by decide)).2
    simpa using h
  · exact (c5_narrowing_amended (fun _ _ => .ok []) (fun _ => true) "g" "u"
      ["a", "b"] [] ["r"]).2.2.1
  · exact (c5_narrowing_amended (fun _ _ => .ok []) (fun _ => true) "s" "u"
      ["a", "b"] ["a", "x"] ["r"]).2.2.2

/-- Claim C3 counterexample: a structurally invalid embed (rejected by the
field-level validator) submitted through createAndSend is attached to the
finalized message with its media resolved — the pipeline path performs no
validation and surfaces no FailedValidation — while the validating create_embed
helper (not called by the pipeline) rejects the same embed. -/
theorem c3_embed_validation_counterexample :
    c3Validate c3Embed = some "invalid url"
  ∧ (match Message.create_from_api envBase (Channel.Group "g" ["a"])
        { embeds := some [c3Embed] } (.webhook "w") none {} false true with
     | .ok (m, _) => m.embeds
     | .error _ => none) = some [sendableToText c3Embed (some { id := "f" })]
  ∧ Message.create_embed c3Validate envBase.use_attachment { id := "x", author := "w" }
      c3Embed = .error (.FailedValidation "invalid url") := by
  refine ⟨rfl, by decide, rfl⟩

/-- Claim C3 amended: the validating path exists only in create_embed, which
rejects an invalid embed with FailedValidation before resolving any media (its
result does not depend on the upload store); the pipeline attaches embeds via
attach_sendable_embed, which takes no validator at all and attaches any embed
whose media (if present) resolves. -/
theorem c3_embed_validation_amended (validate : SendableEmbed → Option String)
    (use_att use_att2 : String → String → String → Except ErrorType File) (m : Message)
    (embed : SendableEmbed) (err : String) :
    (validate embed = some err →
      Message.create_embed validate use_att m embed = .error (.FailedValidation err)
      ∧ Message.create_embed validate use_att m embed =
          Message.create_embed validate use_att2 m embed)
  ∧ (embed.media = none →
      Message.attach_sendable_embed use_att m embed =
        .ok { m with embeds := some ((m.embeds.getD []) ++ [sendableToText embed none]) })
  ∧ (∀ i f, embed.media = some i → use_att i m.id m.author = .ok f →
      Message.attach_sendable_embed use_att m embed =
        .ok { m with embeds := some ((m.embeds.getD []) ++ [sendableToText embed (some f)]) })
    := by
  refine ⟨?_, ?_, ?_⟩
  · intro hv
    exact ⟨by simp [Message.create_embed, hv], by simp [Message.create_embed, hv]⟩
  · intro hm
    simp [Message.attach_sendable_embed, hm]
  · intro i f hm hu
    simp [Message.attach_sendable_embed, hm, hu]

/-- Claim C3 amended witness: instantiation at the invalid embed and the
always-succeeding upload store. -/
theorem c3_embed_validation_amended_witness :
    Message.create_embed c3Validate envBase.use_attachment { id := "x", author := "w" }
      c3Embed = .error (.FailedValidation "invalid url")
  ∧ Message.attach_sendable_embed envBase.use_attachment { id := "x", author := "w" }
      c3Embed =
      .ok { ({ id := "x", author := "w" } : Message) with
            embeds := some [sendableToText c3Embed (some { id := "f" })] } := by
  constructor
  · exact ((c3_embed_validation_amended c3Validate envBase.use_attachment
      envBase.use_attachment { id := "x", author := "w" } c3Embed "invalid url").1 rfl).1
  · have h := (c3_embed_validation_amended c3Validate envBase.use_attachment
      envBase.use_attachment { id := "x", author := "w" } c3Embed "invalid url").2.2
      "att1" { id := "f" } rfl rfl
    simpa using h

/-- Claim C2 counterexample: a resubmission whose nonce the guard has already
seen fails, but with the InvalidOperation kind — create_from_api maps the guard
failure through map_err into InvalidOperation, not DuplicateRequest. -/
theorem c2_duplicate_nonce_counterexample :
    Message.create_from_api envC2 (Channel.Group "g" ["a"])
      { nonce := some "n", content := some "hi" } (.user { id := "u" }) none {} false true =
      .error .InvalidOperation
  ∧ ErrorType.InvalidOperation ≠ ErrorType.DuplicateRequest := by
  exact ⟨rfl, by decide⟩

/-- Claim C2 amended: a second createAndSend call whose non-absent nonce lies
inside the dedup window fails with the InvalidOperation kind (the guard failure
is mapped to InvalidOperation by the pipeline), and — the failure being returned
before construction completes — no message and no persistence effect is
produced. -/
theorem c2_duplicate_nonce_amended (env : Env) (channel : Channel) (data : DataMessageSend)
    (author : MessageAuthor) (user : Option UserInfo) (limits : FeaturesLimits)
    (ge am : Bool) (n : String) :
    data.nonce = some n → env.nonce_seen n = true →
    Message.validate_sum data.content (data.embeds.getD []) limits.message_length = .ok () →
    Message.create_from_api env channel data author user limits ge am =
      .error .InvalidOperation := by
  intro hn hs hv
  simp [Message.create_from_api, buildMessage, hv, consume_nonce, hn, hs]

/-- Claim C2 amended witness: the concrete duplicate resubmission. -/
theorem c2_duplicate_nonce_amended_witness :
    Message.create_from_api envC2 (Channel.Group "g" ["a"])
      { nonce := some "n", content := some "hi" } (.user { id := "u" }) none {} false true =
      .error .InvalidOperation :=
  c2_duplicate_nonce_amended envC2 (Channel.Group "g" ["a"])
    { nonce := some "n", content := some "hi" } (.user { id := "u" }) none {} false true
    "n" rfl rfl rfl

/-- Claim C8: any raw flags value above 7 makes createAndSend fail with
InvalidProperty, before any flag bit is interpreted and before any later stage
runs — the result is this error for every collaborator environment, author,
channel and payload passing the three earlier gates (size, nonce, emptiness),
covering every combination of the three defined bits with any higher bit. -/
theorem c8_flags_fast_reject (env : Env) (channel : Channel) (data : DataMessageSend)
    (author : MessageAuthor) (user : Option UserInfo) (limits : FeaturesLimits)
    (ge am : Bool) (raw : Nat) :
    Message.validate_sum data.content (data.embeds.getD []) limits.message_length = .ok () →
    (∀ n, data.nonce = some n → env.nonce_seen n = false) →
    ((data.content.getD "").isEmpty && (data.attachments.getD []).isEmpty
      && (data.embeds.getD []).isEmpty) = false →
    data.flags = some raw → raw > 7 →
    Message.create_from_api env channel data author user limits ge am =
      .error .InvalidProperty := by
  intro hv hn hne hf hraw
  cases hd : data.nonce with
  | none =>
    simp [Message.create_from_api, buildMessage, hv, consume_nonce, hd, hne, flagStage, hf,
      hraw]
  | some n =>
    have hseen := hn n hd
    simp [Message.create_from_api, buildMessage, hv, consume_nonce, hd, hseen, hne, flagStage,
      hf, hraw]

/-- Claim C8 witness: raw flags 8 on an otherwise valid send is rejected with
InvalidProperty. -/
theorem c8_flags_fast_reject_witness :
    Message.create_from_api envBase (Channel.Group "g" ["a"])
      { content := some "hi", flags := some 8 } (.user { id := "u" }) none {} false true =
      .error .InvalidProperty :=
  c8_flags_fast_reject envBase (Channel.Group "g" ["a"])
    { content := some "hi", flags := some 8 } (.user { id := "u" }) none {} false true 8
    rfl (fun n h => Option.noConfusion h) rfl rfl (by decide)

lemma flagStage_ok_not_both (rf : Option Nat) (am : Bool) (u : Option UserInfo)
    (s e o : Bool) : flagStage rf am u = .ok (s, e, o) → (e && o) = false := by
  intro h
  cases rf with
  | none =>
    simp only [flagStage, Except.ok.injEq, Prod.mk.injEq] at h
    obtain ⟨-, h2, h3⟩ := h
    subst h2
    subst h3
    rfl
  | some raw =>
    simp only [flagStage] at h
    split at h
    · exact Except.noConfusion h
    · split at h
      · exact Except.noConfusion h
      · split at h
        · exact Except.noConfusion h
        · rename_i hcond
          simp only [Except.ok.injEq, Prod.mk.injEq] at h
          obtain ⟨-, h2, h3⟩ := h
          subst h2
          subst h3
          simpa using hcond

lemma massMentionStage_ok_mentions (env : Env) (author : MessageAuthor) (allow : Bool)
    (sid : Option String) (me mo : Bool) (roles : List String) (me2 mo2 : Bool)
    (roles2 : List String) :
    massMentionStage env author allow sid me mo roles = .ok (me2, mo2, roles2) →
    (me2 = me ∧ mo2 = mo) ∨ (me2 = false ∧ mo2 = false) := by
  intro h
  simp only [massMentionStage] at h
  by_cases h1 : (!env.config.mass_mentions_enabled
      && (me || mo || !(pruneRoles env allow sid roles).isEmpty)) = true
  · rw [if_pos h1] at h
    simp only [Except.ok.injEq, Prod.mk.injEq] at h
    exact Or.inr ⟨h.1.symm, h.2.1.symm⟩
  · rw [if_neg h1] at h
    by_cases h2 : (me || mo || !(pruneRoles env allow sid roles).isEmpty) = true
    · rw [if_pos h2] at h
      cases author with
      | system => simp at h
      | webhook i =>
        simp only [Except.ok.injEq, Prod.mk.injEq] at h
        exact Or.inl ⟨h.1.symm, h.2.1.symm⟩
      | user u =>
        by_cases h3 : ((me || mo) && !env.perms.mention_everyone) = true
        · rw [if_pos h3] at h
          simp at h
        · rw [if_neg h3] at h
          by_cases h4 : (!(pruneRoles env allow sid roles).isEmpty
              && !env.perms.mention_roles) = true
          · rw [if_pos h4] at h
            simp at h
          · rw [if_neg h4] at h
            simp only [Except.ok.injEq, Prod.mk.injEq] at h
            exact Or.inl ⟨h.1.symm, h.2.1.symm⟩
    · rw [if_neg h2] at h
      simp only [Except.ok.injEq, Prod.mk.injEq] at h
      exact Or.inl ⟨h.1.symm, h.2.1.symm⟩

lemma attach_sendable_embed_flags (u : String → String → String → Except ErrorType File)
    (m : Message) (e : SendableEmbed) (m2 : Message) :
    Message.attach_sendable_embed u m e = .ok m2 → m2.flags = m.flags := by
  intro h
  simp only [Message.attach_sendable_embed] at h
  split at h
  · split at h
    · simp only [Except.ok.injEq] at h
      rw [← h]
    · exact Except.noConfusion h
  · simp only [Except.ok.injEq] at h
    rw [← h]

lemma attachEmbedsLoop_flags (u : String → String → String → Except ErrorType File)
    (l : List SendableEmbed) : ∀ (m m2 : Message),
    attachEmbedsLoop u m l = .ok m2 → m2.flags = m.flags := by
  induction l with
  | nil =>
    intro m m2 h
    simp only [attachEmbedsLoop, Except.ok.injEq] at h
    rw [← h]
  | cons e rest ih =>
    intro m m2 h
    simp only [attachEmbedsLoop] at h
    cases hx : Message.attach_sendable_embed u m e with
    | ok mm =>
      simp only [hx] at h
      exact (ih mm m2 h).trans (attach_sendable_embed_flags u m e mm hx)
    | error e2 =>
      simp [hx] at h

lemma finalFlags_testBit (s e o : Bool) :
    Nat.testBit (finalFlags s e o) 1 = e ∧ Nat.testBit (finalFlags s e o) 2 = o := by
  cases s <;> cases e <;> cases o <;> exact ⟨by decide, by decide⟩

lemma buildMessage_flags_form (env : Env) (channel : Channel) (data : DataMessageSend)
    (author : MessageAuthor) (user : Option UserInfo) (limits : FeaturesLimits)
    (am : Bool) (m : Message) :
    buildMessage env channel data author user limits am = .ok m →
    ∃ s me0 mo0 me2 mo2 roles1,
      flagStage data.flags am user = .ok (s, me0, mo0) ∧
      massMentionStage env author (am && env.config.mass_mentions_enabled) channel.serverId
        ((parsedResults env data).mentions_everyone || me0)
        ((parsedResults env data).mentions_online || mo0)
        (parsedResults env data).role_mentions = .ok (me2, mo2, roles1) ∧
      m.flags = some (finalFlags s me2 mo2) := by
  intro h
  simp only [buildMessage] at h
  cases hval : Message.validate_sum data.content (data.embeds.getD []) limits.message_length
  with
  | error e1 => simp [hval] at h
  | ok u1 =>
  simp only [hval] at h
  cases hcons : consume_nonce env.nonce_seen env.idem_key data.nonce with
  | error e1 => simp [hcons] at h
  | ok key =>
  simp only [hcons] at h
  by_cases hemp : ((data.content.getD "").isEmpty && (data.attachments.getD []).isEmpty
      && (data.embeds.getD []).isEmpty) = true
  · simp [hemp] at h
  · have hemp2 : ((data.content.getD "").isEmpty && (data.attachments.getD []).isEmpty
        && (data.embeds.getD []).isEmpty) = false := by
      simpa using hemp
    simp only [hemp2, Bool.false_eq_true, if_false] at h
    cases hflag : flagStage data.flags am user with
    | error e1 => simp [hflag] at h
    | ok t =>
    obtain ⟨s, me0, mo0⟩ := t
    simp only [hflag] at h
    cases hint : interactionsIntakeCheck data.interactions with
    | error e1 => simp [hint] at h
    | ok u2 =>
    simp only [hint] at h
    cases hmass : massMentionStage env author (am && env.config.mass_mentions_enabled)
        channel.serverId ((parsedResults env data).mentions_everyone || me0)
        ((parsedResults env data).mentions_online || mo0)
        (parsedResults env data).role_mentions with
    | error e1 => simp [hmass] at h
    | ok t2 =>
    obtain ⟨me2, mo2, roles1⟩ := t2
    simp only [hmass] at h
    cases hlink : link_replies env.fetch_message env.config.limits.message_replies am
        data.replies (parsedResults env data).user_mentions with
    | error e1 => simp [hlink] at h
    | ok p =>
    obtain ⟨um1, reps⟩ := p
    simp only [hlink] at h
    cases hnarrow : narrowMentionsCore env.fetch_members env.member_can_see channel um1 roles1
    with
    | error e1 => simp [hnarrow] at h
    | ok q =>
    obtain ⟨um2, roles2⟩ := q
    simp only [hnarrow] at h
    by_cases hac : (data.attachments.getD []).length > limits.message_attachments
    · simp [hac] at h
    · by_cases hec : (data.embeds.getD []).length > env.config.limits.message_embeds
      · simp [hac, hec] at h
      · simp only [if_neg hac, if_neg hec] at h
        cases hres : resolveAttachments
            (fun aid => env.use_attachment aid env.new_message_id author.authorId)
            (data.attachments.getD []) with
        | error e1 => simp [hres] at h
        | ok atts =>
        simp only [hres] at h
        split at h
        · exact Except.noConfusion h
        · rename_i message2 hattach
          simp only [Except.ok.injEq] at h
          refine ⟨s, me0, mo0, me2, mo2, roles1, rfl, hmass, ?_⟩
          have h3 := attachEmbedsLoop_flags env.use_attachment (data.embeds.getD []) _ _ hattach
          rw [← h]
          show message2.flags = some (finalFlags s me2 mo2)
          rw [h3]
          split <;> rfl

/-- Claim C1 counterexample: content whose parse yields both the everyone and the
online token, sent by a webhook author with no raw flags, finalizes successfully
with flags 6 — both the MentionsEveryone bit (1) and the MentionsOnline bit (2)
set; the InvalidFlagValue guard only inspects the flag-derived booleans before
the parsed tokens are OR-ed in. -/
theorem c1_flags_counterexample :
    (match Message.create_from_api envC1 (Channel.TextChannel "c" "s")
        { content := some "@everyone @online" } (.webhook "w") none {} false true with
     | .ok (m, _) => m.flags
     | .error _ => none) = some 6
  ∧ Nat.testBit 6 1 = true ∧ Nat.testBit 6 2 = true := by
  exact ⟨by decide, by decide, by decide⟩

/-- Claim C1 amended: for every message finalized by createAndSend whose text
content parses to neither an everyone nor an online token, the resulting flags
bitfield never has the MentionsEveryone bit (1) and the MentionsOnline bit (2)
simultaneously set, for every combination of raw input flags; when the parsed
text supplies both tokens the invariant can be violated (see the
counterexample). -/
theorem c1_flags_invariant_amended (env : Env) (channel : Channel) (data : DataMessageSend)
    (author : MessageAuthor) (user : Option UserInfo) (limits : FeaturesLimits)
    (ge am : Bool) (m : Message) (eff : List Effect) (v : Nat) :
    (parsedResults env data).mentions_everyone = false →
    (parsedResults env data).mentions_online = false →
    Message.create_from_api env channel data author user limits ge am = .ok (m, eff) →
    m.flags = some v →
    ¬(Nat.testBit v 1 = true ∧ Nat.testBit v 2 = true) := by
  intro hpe hpo h hv
  have hb : buildMessage env channel data author user limits am = .ok m := by
    unfold Message.create_from_api at h
    cases hx : buildMessage env channel data author user limits am with
    | error e => rw [hx] at h; exact Except.noConfusion h
    | ok mb =>
      rw [hx] at h
      simp only [Except.ok.injEq, Prod.mk.injEq] at h
      rw [h.1]
  obtain ⟨s, me0, mo0, me2, mo2, roles1, hflag, hmass, hfl⟩ :=
    buildMessage_flags_form env channel data author user limits am m hb
  have hnb : (me0 && mo0) = false := flagStage_ok_not_both data.flags am user s me0 mo0 hflag
  simp only [hpe, hpo, Bool.false_or] at hmass
  have hdisj := massMentionStage_ok_mentions env author (am && env.config.mass_mentions_enabled)
    channel.serverId me0 mo0 (parsedResults env data).role_mentions me2 mo2 roles1 hmass
  have hveq : v = finalFlags s me2 mo2 := by
    rw [hv] at hfl
    exact Option.some.inj hfl
  subst hveq
  obtain ⟨hb1, hb2⟩ := finalFlags_testBit s me2 mo2
  rintro ⟨h1, h2⟩
  rw [hb1] at h1
  rw [hb2] at h2
  rcases hdisj with ⟨e1, e2⟩ | ⟨e1, e2⟩
  · rw [e1] at h1
    rw [e2] at h2
    rw [h1, h2] at hnb
    exact Bool.noConfusion hnb
  · rw [e1] at h1
    exact Bool.noConfusion h1

/-- Claim C1 amended witness: a send carrying both defined mention flag bits and
a token-free parse is rejected upstream, while raw flags 2 (everyone only)
finalizes with flags 2 — bit 1 set, bit 2 clear. -/
theorem c1_flags_invariant_amended_witness :
    (parsedResults envBase { content := some "hello", flags := some 2 }).mentions_everyone
      = false
  ∧ Message.create_from_api envBase (Channel.Group "g" ["a"])
      { content := some "hello", flags := some 2 } (.webhook "w") none {} false true =
      .ok ({ id := "01H", channel := "g", author := "w", webhook := some "w",
             content := some "hello", nonce := some "k", flags := some 2 },
        Message.sendEffects
          { id := "01H", channel := "g", author := "w", webhook := some "w",
            content := some "hello", nonce := some "k", flags := some 2 }
          (Channel.Group "g" ["a"]) false)
  ∧ ¬(Nat.testBit 2 1 = true ∧ Nat.testBit 2 2 = true) :=
  ⟨rfl, rfl,
    c1_flags_invariant_amended envBase (Channel.Group "g" ["a"])
      { content := some "hello", flags := some 2 } (.webhook "w") none {} false true
      { id := "01H", channel := "g", author := "w", webhook := some "w",
        content := some "hello", nonce := some "k", flags := some 2 }
      (Message.sendEffects
        { id := "01H", channel := "g", author := "w", webhook := some "w",
          content := some "hello", nonce := some "k", flags := some 2 }
        (Channel.Group "g" ["a"]) false) 2 rfl rfl rfl rfl⟩

end Guilderia
